import Mathlib

/-!
# Verification of the talent-contest voting backend

Shallow embedding of the Python backend (src/modelos.py, src/repositorios.py,
src/servicios.py, src/socket_manager.py, src/main.py) and proofs about it.

Modelling decisions:
* MongoDB ObjectIds are opaque unique identifiers; they are modelled as
  natural numbers, and id generation (`freshId`) produces an id distinct
  from every id already present anywhere in the system state, mirroring
  ObjectId uniqueness.
* The Mongo `votes` collection with its unique index on
  (user_id, contestant_id) is a list of `VoteRecord`s; `insert_one` either
  succeeds, raises a duplicate-key error, or raises an infrastructure
  error.  `register_vote_document` catches every exception and returns a
  boolean, so it is modelled with a `mongoOk` oracle for the
  infrastructure outcome.
* Redis is a key-value store; the per-contestant counters
  (keys contestant:{id}:votes) are an association list and the key
  system:total_votes is the field `systemTotal`.  `redis.incr` treats an
  absent key as 0; `get` returns 0 for an absent key.
* `sio.emit` is best effort (python-socketio never raises on delivery
  failure); it is modelled as appending the event to a broadcast channel
  when delivery happens, controlled by an `emitDelivered` oracle that the
  control flow never consults, exactly as in the source.
-/

namespace Concurso

/-- src/modelos.py `Contestant` (timestamp-free fields used by the claims). -/
structure Contestant where
  id : Nat
  nombre : String
  categoria : String
  foto : String
deriving Repr, DecidableEq

/-- src/modelos.py `VoteRecord` (the timestamp is set by the store and is
irrelevant to every claim, so it is omitted). -/
structure VoteRecord where
  user_id : String
  contestant_id : Nat
deriving Repr, DecidableEq

/-- src/modelos.py `User`. -/
structure User where
  username : String
  role : String
deriving Repr, DecidableEq

/-- The payload of the VOTE_UPDATE socket event emitted in
`VotingService.cast_vote`. -/
structure VoteEvent where
  contestant_id : Nat
  new_total_votes : Nat
  system_total : Nat
deriving Repr, DecidableEq

/-- src/modelos.py `ContestantAdminView`: a dashboard row. -/
structure ContestantAdminView where
  id : Nat
  nombre : String
  categoria : String
  foto : String
  total_votes : Nat
deriving Repr, DecidableEq

/-- The whole backend state: the Mongo collections (contestants, votes,
users), the Redis keys (per-contestant counters and system total) and the
socket broadcast channel. -/
structure State where
  catalog : List Contestant
  ledger : List VoteRecord
  counters : List (Nat × Nat)
  systemTotal : Nat
  users : List User
  events : List VoteEvent
deriving Repr, DecidableEq

/-! ## Redis primitives (src/repositorios.py `RedisRankingRepository`) -/

/-- `redis.get` on a counter key: 0 when the key is absent. -/
def rGet (cs : List (Nat × Nat)) (k : Nat) : Nat :=
  match cs with
  | [] => 0
  | (k', v) :: rest => if k' = k then v else rGet rest k

/-- `redis.set`: overwrite the key's value, creating the key if absent. -/
def rSet (cs : List (Nat × Nat)) (k : Nat) (v : Nat) : List (Nat × Nat) :=
  match cs with
  | [] => [(k, v)]
  | (k', v') :: rest => if k' = k then (k, v) :: rest else (k', v') :: rSet rest k v

/-- `redis.incr`: an absent key counts as 0 and is created with value 1. -/
def rIncr (cs : List (Nat × Nat)) (k : Nat) : List (Nat × Nat) :=
  rSet cs k (rGet cs k + 1)

/-- `RedisRankingRepository.increment_vote`: pipeline of incr on the
contestant key and incr on system:total_votes; returns the new
per-contestant total (results[0]). -/
def increment_vote (s : State) (contestant_id : Nat) : Nat × State :=
  let cs := rIncr s.counters contestant_id
  (rGet cs contestant_id,
   { s with counters := cs, systemTotal := s.systemTotal + 1 })

/-- `RedisRankingRepository.get_total_votes`. -/
def get_total_votes (s : State) (contestant_id : Nat) : Nat :=
  rGet s.counters contestant_id

/-- `RedisRankingRepository.get_system_total_votes`. -/
def get_system_total_votes (s : State) : Nat :=
  s.systemTotal

/-! ## Vote ledger (src/repositorios.py `MongoVoteRepository`) -/

/-- `MongoVoteRepository.has_user_voted_for`: advisory read of the votes
collection. -/
def has_user_voted_for (ledger : List VoteRecord) (user_id : String)
    (contestant_id : Nat) : Bool :=
  ledger.any fun v => v.user_id == user_id && v.contestant_id == contestant_id

/-- `MongoVoteRepository.register_vote_document`: `insert_one` against the
unique index on (user_id, contestant_id).  Any exception — duplicate key
or infrastructure fault (the `mongoOk` oracle) — is caught and reported
as `false`; on success the document is appended. -/
def register_vote_document (ledger : List VoteRecord) (vote : VoteRecord)
    (mongoOk : Bool) : Bool × List VoteRecord :=
  if mongoOk && !(has_user_voted_for ledger vote.user_id vote.contestant_id) then
    (true, ledger ++ [vote])
  else
    (false, ledger)

/-- `sio.emit` in src/socket_manager.py: best-effort broadcast; delivery
(the `delivered` oracle) never influences the caller. -/
def emit (s : State) (e : VoteEvent) (delivered : Bool) : State :=
  if delivered then { s with events := s.events ++ [e] } else s

/-! ## VotingService (src/servicios.py) -/

/-- `VotingService.cast_vote`: duplicate pre-check, Mongo write, Redis
increment, socket emission.  Returns the boolean the HTTP layer sees and
the post-state. -/
def cast_vote (s : State) (user_id : String) (contestant_id : Nat)
    (mongoOk emitDelivered : Bool) : Bool × State :=
  if has_user_voted_for s.ledger user_id contestant_id then
    (false, s)
  else
    let vote : VoteRecord := { user_id := user_id, contestant_id := contestant_id }
    let res := register_vote_document s.ledger vote mongoOk
    let s1 := { s with ledger := res.2 }
    if res.1 then
      let inc := increment_vote s1 contestant_id
      let new_contestant_total := inc.1
      let s2 := inc.2
      let system_total := get_system_total_votes s2
      let s3 := emit s2
        { contestant_id := contestant_id,
          new_total_votes := new_contestant_total,
          system_total := system_total } emitDelivered
      (true, s3)
    else
      (false, s1)

/-- A sequence of `cast_vote` calls (voter, contestant, mongo oracle,
delivery oracle), folded over the state. -/
def cast_many (s : State) : List (String × Nat × Bool × Bool) → State
  | [] => s
  | (u, c, ok, ed) :: rest => cast_many (cast_vote s u c ok ed).2 rest

/-! ## AdminService (src/servicios.py) and MongoContestantRepository -/

/-- Every contestant id the state references anywhere. -/
def stateIds (s : State) : List Nat :=
  s.catalog.map Contestant.id ++ s.ledger.map VoteRecord.contestant_id
    ++ s.counters.map Prod.fst

/-- MongoDB ObjectId generation for `insert_one` on the contestants
collection: an id distinct from every id present in the system. -/
def freshId (s : State) : Nat :=
  (stateIds s).foldr max 0 + 1

/-- `MongoContestantRepository.add_contestant`: insert the document; the
store assigns the (fresh) id and returns it. -/
def add_contestant_repo (s : State) (nombre categoria foto : String) :
    Nat × State :=
  let i := freshId s
  (i, { s with catalog := s.catalog
      ++ [{ id := i, nombre := nombre, categoria := categoria, foto := foto }] })

/-- `AdminService.add_contestant`: insert into the catalog then
`redis.set contestant:{id}:votes 0`. -/
def add_contestant (s : State) (nombre categoria foto : String) : Nat × State :=
  let r := add_contestant_repo s nombre categoria foto
  (r.1, { r.2 with counters := rSet r.2.counters r.1 0 })

/-- A raw entrant descriptor of the bulk-load JSON: each recognised key is
present (`some`) or absent (`none`). -/
structure RawItem where
  nombre : Option String := none
  name : Option String := none
  categoria : Option String := none
  category : Option String := none
  foto : Option String := none
  photo_url : Option String := none
  photo : Option String := none
deriving Repr, DecidableEq

/-- Python truthiness of `item.get(key)`: `None` and the empty string are
falsy. -/
def truthy : Option String → Bool
  | none => false
  | some s => !(s == "")

/-- Python's `a or b` over `item.get` results. -/
def pyOr (a b : Option String) : Option String :=
  if truthy a then a else b

/-- `item.get("nombre") or item.get("name")`. -/
def itemNombre (it : RawItem) : Option String := pyOr it.nombre it.name

/-- `item.get("categoria") or item.get("category")`. -/
def itemCategoria (it : RawItem) : Option String := pyOr it.categoria it.category

/-- `item.get("foto") or item.get("photo_url") or item.get("photo")`. -/
def itemFoto (it : RawItem) : Option String :=
  pyOr (pyOr it.foto it.photo_url) it.photo

/-- The loop's guard: the item is kept unless `not nombre or not categoria`. -/
def validItem (it : RawItem) : Bool :=
  truthy (itemNombre it) && truthy (itemCategoria it)

/-- Python's `x or default` on an `item.get` result. -/
def strOrDefault (o : Option String) (d : String) : String :=
  if truthy o then o.getD d else d

/-- One iteration of the `initialize_database` loop: skip the item when
name or category is falsy, else add the contestant and zero its counter. -/
def init_step (s : State) (it : RawItem) : State :=
  if validItem it then
    (add_contestant s ((itemNombre it).getD "") ((itemCategoria it).getD "")
      (strOrDefault (itemFoto it) "default.png")).2
  else
    s

/-- `clear_all` on the three repositories: contestants and votes deleted,
Redis `flushdb` wipes the counters and the system total. -/
def clear_state (s : State) : State :=
  { s with catalog := [], ledger := [], counters := [], systemTotal := 0 }

/-- `AdminService.initialize_database`: clear everything, load the valid
descriptors, then set system:total_votes to 0. -/
def initialize_database (s : State) (json_data : List RawItem) : State :=
  let s1 := json_data.foldl init_step (clear_state s)
  { s1 with systemTotal := 0 }

/-- `AdminService.get_realtime_dashboard`: one row per catalog entry, the
counter defaulting to 0 when absent. -/
def get_realtime_dashboard (s : State) : List ContestantAdminView :=
  s.catalog.map fun c =>
    { id := c.id, nombre := c.nombre, categoria := c.categoria,
      foto := c.foto, total_votes := get_total_votes s c.id }

/-- Python's `list.sort(key=lambda x: x.total_votes, reverse=True)` is a
stable descending sort; embedded as a stable insertion: an element is
placed before the first element whose key does not exceed its own, so
earlier elements stay first among equal keys. -/
def insertDesc (x : ContestantAdminView) :
    List ContestantAdminView → List ContestantAdminView
  | [] => [x]
  | y :: ys =>
    if y.total_votes ≤ x.total_votes then x :: y :: ys else y :: insertDesc x ys

/-- The stable descending sort of a dashboard. -/
def sortDesc (l : List ContestantAdminView) : List ContestantAdminView :=
  l.foldr insertDesc []

/-- `AdminService.get_top_3`: sort the dashboard by total_votes descending
(stable) and keep the first three rows. -/
def get_top_3 (s : State) : List ContestantAdminView :=
  (sortDesc (get_realtime_dashboard s)).take 3

/-- `AdminService.get_contestants_with_zero_votes`. -/
def get_contestants_with_zero_votes (s : State) : List ContestantAdminView :=
  (get_realtime_dashboard s).filter fun c => c.total_votes == 0

/-! ## AuthService and MongoUserRepository -/

/-- `MongoUserRepository.create_user`: `update_one` with filter on
username, `$set` of the full document, `upsert=True` — replace the first
matching record, else append. -/
def create_user : List User → User → List User
  | [], u => [u]
  | w :: ws, u =>
    if w.username == u.username then u :: ws else w :: create_user ws u

/-- `AuthService.login`: derive the role from the username alone and
upsert the user record. -/
def login (users : List User) (username : String) : User × List User :=
  let role := if username.toLower == "admin" then "admin" else "public"
  let user : User := { username := username, role := role }
  (user, create_user users user)

/-! ## Derived quantities used by the tally invariant -/

/-- Number of ledger records referencing a contestant. -/
def countVotesFor (ledger : List VoteRecord) (c : Nat) : Nat :=
  (ledger.filter fun v => v.contestant_id == c).length

/-- Sum of every per-contestant counter value. -/
def countersSum (cs : List (Nat × Nat)) : Nat :=
  (cs.map Prod.snd).sum

/-- The tally-consistency invariant of the spec: the global counter is the
sum of the per-contestant counters, and each per-contestant counter (0
when absent) is the number of ledger records for that contestant. -/
def TallyInv (s : State) : Prop :=
  s.systemTotal = countersSum s.counters
    ∧ ∀ c : Nat, rGet s.counters c = countVotesFor s.ledger c

/-! ## Helper lemmas: Redis primitives -/

theorem rGet_rSet (cs : List (Nat × Nat)) (k v c : Nat) :
    rGet (rSet cs k v) c = if k = c then v else rGet cs c := by
  induction cs with
  | nil => simp [rGet, rSet]
  | cons p rest ih =>
    obtain ⟨k', v'⟩ := p
    by_cases hk : k' = k
    · subst hk
      by_cases hc : k' = c <;> simp [rGet, rSet, hc]
    · by_cases hc : k' = c
      · subst hc
        have hk2 : k ≠ k' := fun h => hk h.symm
        simp [rGet, rSet, hk, hk2, ih]
      · simp [rGet, rSet, hk, hc, ih]

theorem countersSum_rSet (cs : List (Nat × Nat)) (k v : Nat) :
    countersSum (rSet cs k v) + rGet cs k = countersSum cs + v := by
  induction cs with
  | nil => simp [countersSum, rGet, rSet]
  | cons p rest ih =>
    obtain ⟨k', v'⟩ := p
    by_cases hk : k' = k
    · subst hk
      simp [countersSum, rGet, rSet]
      omega
    · simp [countersSum, rGet, rSet, hk] at ih ⊢
      omega

theorem rGet_rIncr (cs : List (Nat × Nat)) (k c : Nat) :
    rGet (rIncr cs k) c = rGet cs c + if k = c then 1 else 0 := by
  rw [rIncr, rGet_rSet]
  by_cases h : k = c
  · subst h; simp
  · simp [h]

theorem countersSum_rIncr (cs : List (Nat × Nat)) (k : Nat) :
    countersSum (rIncr cs k) = countersSum cs + 1 := by
  have h := countersSum_rSet cs k (rGet cs k + 1)
  rw [rIncr]
  omega

theorem rGet_of_all_zero (cs : List (Nat × Nat)) (c : Nat)
    (h : ∀ p ∈ cs, p.2 = 0) : rGet cs c = 0 := by
  induction cs with
  | nil => simp [rGet]
  | cons p rest ih =>
    obtain ⟨k', v'⟩ := p
    have hv : v' = 0 := h (k', v') (by simp)
    by_cases hc : k' = c
    · simp [rGet, hc, hv]
    · simpa [rGet, hc] using ih fun q hq => h q (by simp [hq])

theorem all_zero_rSet (cs : List (Nat × Nat)) (k : Nat)
    (h : ∀ p ∈ cs, p.2 = 0) : ∀ p ∈ rSet cs k 0, p.2 = 0 := by
  induction cs with
  | nil => simp [rSet]
  | cons q rest ih =>
    obtain ⟨k', v'⟩ := q
    have hv : v' = 0 := h (k', v') (by simp)
    by_cases hk : k' = k
    · subst hk
      simp [rSet]
      exact fun a b hab => (h (a, b) (by simp [hab])).symm ▸ rfl
    · intro p hp
      simp only [rSet, if_neg hk, List.mem_cons] at hp
      rcases hp with hp | hp
      · simp [hp, hv]
      · exact ih (fun q hq => h q (by simp [hq])) p hp

theorem rGet_of_not_key (cs : List (Nat × Nat)) (k : Nat)
    (h : ∀ p ∈ cs, p.1 ≠ k) : rGet cs k = 0 := by
  induction cs with
  | nil => simp [rGet]
  | cons p rest ih =>
    obtain ⟨k', v'⟩ := p
    have hk : k' ≠ k := h (k', v') (by simp)
    simpa [rGet, hk] using ih fun q hq => h q (by simp [hq])

/-! ## Helper lemmas: ledger counting and duplicate check -/

theorem countVotesFor_append (l : List VoteRecord) (v : VoteRecord) (c : Nat) :
    countVotesFor (l ++ [v]) c
      = countVotesFor l c + if v.contestant_id = c then 1 else 0 := by
  by_cases h : v.contestant_id = c <;>
    simp [countVotesFor, List.filter_append, h]

theorem has_user_voted_for_append (l : List VoteRecord) (v : VoteRecord)
    (u : String) (c : Nat) :
    has_user_voted_for (l ++ [v]) u c
      = (has_user_voted_for l u c || (v.user_id == u && v.contestant_id == c)) := by
  simp [has_user_voted_for, List.any_append]

/-! ## Helper lemmas: fresh id generation -/

theorem le_foldr_max (l : List Nat) (a : Nat) (h : a ∈ l) :
    a ≤ l.foldr max 0 := by
  induction l with
  | nil => cases h
  | cons b rest ih =>
    rcases List.mem_cons.mp h with hb | hb
    · subst hb; exact le_max_left _ _
    · exact le_trans (ih hb) (le_max_right _ _)

theorem freshId_not_counter_key (s : State) :
    ∀ p ∈ s.counters, p.1 ≠ freshId s := by
  intro p hp
  have : p.1 ∈ stateIds s := by
    simp [stateIds]
    right; right
    exact ⟨p.2, hp⟩
  have hle := le_foldr_max _ _ this
  simp only [freshId]
  omega

theorem freshId_not_in_ledger (s : State) :
    ∀ v ∈ s.ledger, v.contestant_id ≠ freshId s := by
  intro v hv
  have : v.contestant_id ∈ stateIds s := by
    simp [stateIds]
    right; left
    exact ⟨v, hv, rfl⟩
  have hle := le_foldr_max _ _ this
  simp only [freshId]
  omega

/-! ## Helper lemmas: the three exits of cast_vote -/

theorem cast_vote_of_voted (s : State) (u : String) (c : Nat) (ok ed : Bool)
    (h : has_user_voted_for s.ledger u c = true) :
    cast_vote s u c ok ed = (false, s) := by
  simp [cast_vote, h]

theorem cast_vote_mongo_fail (s : State) (u : String) (c : Nat) (ed : Bool) :
    cast_vote s u c false ed = (false, s) := by
  by_cases h : has_user_voted_for s.ledger u c
  · simp [cast_vote, h]
  · simp [cast_vote, h, register_vote_document]

theorem cast_vote_accepted (s : State) (u : String) (c : Nat) (ed : Bool)
    (h : has_user_voted_for s.ledger u c = false) :
    cast_vote s u c true ed = (true,
      { s with
        ledger := s.ledger ++ [{ user_id := u, contestant_id := c }],
        counters := rIncr s.counters c,
        systemTotal := s.systemTotal + 1,
        events := if ed then s.events ++
          [{ contestant_id := c,
             new_total_votes := rGet (rIncr s.counters c) c,
             system_total := s.systemTotal + 1 }] else s.events }) := by
  cases ed <;>
    simp [cast_vote, h, register_vote_document, increment_vote,
      get_system_total_votes, emit]

theorem cast_vote_fst_false_iff (s : State) (u : String) (c : Nat)
    (ok ed : Bool) :
    (cast_vote s u c ok ed).1 = false ↔
      (has_user_voted_for s.ledger u c = true ∨ ok = false) := by
  by_cases h : has_user_voted_for s.ledger u c <;> cases ok <;>
    simp [cast_vote, h, register_vote_document, increment_vote,
      get_system_total_votes, emit]

theorem cast_vote_fst_true (s : State) (u : String) (c : Nat) (ok ed : Bool)
    (h : (cast_vote s u c ok ed).1 = true) :
    ok = true ∧ has_user_voted_for s.ledger u c = false := by
  by_cases hv : has_user_voted_for s.ledger u c
  · rw [cast_vote_of_voted s u c ok ed hv] at h
    cases h
  · cases ok
    · rw [cast_vote_mongo_fail s u c ed] at h
      cases h
    · exact ⟨rfl, by simpa using hv⟩

theorem cast_vote_accept_voted (s : State) (u : String) (c : Nat) (ed : Bool)
    (h : has_user_voted_for s.ledger u c = false) :
    has_user_voted_for (cast_vote s u c true ed).2.ledger u c = true := by
  rw [cast_vote_accepted s u c ed h]
  simp [has_user_voted_for_append]

theorem cast_vote_preserves_voted (s : State) (u u' : String) (c c' : Nat)
    (ok ed : Bool) (h : has_user_voted_for s.ledger u c = true) :
    has_user_voted_for (cast_vote s u' c' ok ed).2.ledger u c = true := by
  by_cases hv : has_user_voted_for s.ledger u' c'
  · rw [cast_vote_of_voted s u' c' ok ed hv]
    exact h
  · cases ok
    · rw [cast_vote_mongo_fail s u' c' ed]
      exact h
    · rw [cast_vote_accepted s u' c' ed (by simpa using hv)]
      simp [has_user_voted_for_append, h]

theorem cast_many_preserves_voted (ops : List (String × Nat × Bool × Bool))
    (s : State) (u : String) (c : Nat)
    (h : has_user_voted_for s.ledger u c = true) :
    has_user_voted_for (cast_many s ops).ledger u c = true := by
  induction ops generalizing s with
  | nil => exact h
  | cons op rest ih =>
    obtain ⟨u', c', ok, ed⟩ := op
    exact ih _ (cast_vote_preserves_voted s u u' c c' ok ed h)

/-! ## Example states used by witnesses and counterexamples -/

/-- A one-contestant catalog with no votes yet. -/
def exS0 : State :=
  { catalog := [{ id := 1, nombre := "A", categoria := "Dance", foto := "a.png" }],
    ledger := [], counters := [(1, 0)], systemTotal := 0,
    users := [], events := [] }

/-- Voter u1 has already voted for contestant 1. -/
def exS1 : State :=
  { catalog := [{ id := 1, nombre := "A", categoria := "Dance", foto := "a.png" }],
    ledger := [{ user_id := "u1", contestant_id := 1 }],
    counters := [(1, 1)], systemTotal := 1,
    users := [], events := [] }

/-! ## C1: at most one accepted vote per (voter, entrant) pair -/

/-- C1: after a first accepted cast_vote(user_id, contestant_id), every
later cast_vote with the same pair — whatever other votes, storage or
delivery outcomes happened in between — returns the non-success result
and leaves the state exactly as it was: no new ledger record, no counter
increment. -/
theorem castVote_at_most_one_accepted (s : State) (u : String) (c : Nat)
    (ok ed ok' ed' : Bool) (ops : List (String × Nat × Bool × Bool))
    (h : (cast_vote s u c ok ed).1 = true) :
    cast_vote (cast_many (cast_vote s u c ok ed).2 ops) u c ok' ed'
      = (false, cast_many (cast_vote s u c ok ed).2 ops) := by
  obtain ⟨hok, hnv⟩ := cast_vote_fst_true s u c ok ed h
  subst hok
  have h1 : has_user_voted_for (cast_vote s u c true ed).2.ledger u c = true :=
    cast_vote_accept_voted s u c ed hnv
  have h2 := cast_many_preserves_voted ops _ u c h1
  exact cast_vote_of_voted _ u c ok' ed' h2

/-- Witness for C1 at a concrete input: u1's vote for contestant 1 is
accepted, and after an interleaved vote by u2 the repeated attempt by u1
is refused with the state untouched. -/
theorem castVote_at_most_one_accepted_witness :
    (cast_vote exS0 "u1" 1 true true).1 = true ∧
    cast_vote
        (cast_many (cast_vote exS0 "u1" 1 true true).2 [("u2", 1, true, true)])
        "u1" 1 true true
      = (false,
         cast_many (cast_vote exS0 "u1" 1 true true).2 [("u2", 1, true, true)]) :=
  ⟨by decide,
   castVote_at_most_one_accepted exS0 "u1" 1 true true true true
     [("u2", 1, true, true)] (by decide)⟩

/-! ## C2: votes for entrant ids absent from the catalog -/

/-- C2 counterexample: contestant 2 is not in the catalog of `exS0`, yet
cast_vote accepts the vote, writes a ledger record and increments the
entrant counter and the global total — the code never consults the
catalog. -/
theorem castVote_unknown_entrant_counterexample :
    (exS0.catalog.all fun e => !(e.id == 2)) = true ∧
    (cast_vote exS0 "u1" 2 true true).1 = true ∧
    (cast_vote exS0 "u1" 2 true true).2.ledger
      = [{ user_id := "u1", contestant_id := 2 }] ∧
    rGet (cast_vote exS0 "u1" 2 true true).2.counters 2 = 1 ∧
    (cast_vote exS0 "u1" 2 true true).2.systemTotal = 1 := by
  decide

/-- C2 amended: cast_vote performs no catalog-membership validation; for a
voter who has not yet voted for the pair, a vote for an entrant id absent
from the catalog is accepted whenever the ledger write succeeds — a
ledger record is appended and the entrant and global counters are
incremented. -/
theorem castVote_unknown_entrant_accepted (s : State) (u : String) (c : Nat)
    (ed : Bool) (hcat : ∀ e ∈ s.catalog, e.id ≠ c)
    (hnv : has_user_voted_for s.ledger u c = false) :
    (cast_vote s u c true ed).1 = true ∧
    (cast_vote s u c true ed).2.ledger
      = s.ledger ++ [{ user_id := u, contestant_id := c }] ∧
    rGet (cast_vote s u c true ed).2.counters c = rGet s.counters c + 1 ∧
    (cast_vote s u c true ed).2.systemTotal = s.systemTotal + 1 := by
  rw [cast_vote_accepted s u c ed hnv]
  refine ⟨rfl, rfl, ?_, rfl⟩
  simp [rGet_rIncr]

/-- Witness for the amended C2 at a concrete input. -/
theorem castVote_unknown_entrant_accepted_witness :
    (∀ e ∈ exS0.catalog, e.id ≠ 2) ∧
    (cast_vote exS0 "u1" 2 true true).1 = true ∧
    (cast_vote exS0 "u1" 2 true true).2.ledger
      = exS0.ledger ++ [{ user_id := "u1", contestant_id := 2 }] ∧
    rGet (cast_vote exS0 "u1" 2 true true).2.counters 2
      = rGet exS0.counters 2 + 1 ∧
    (cast_vote exS0 "u1" 2 true true).2.systemTotal
      = exS0.systemTotal + 1 :=
  ⟨by decide,
   castVote_unknown_entrant_accepted exS0 "u1" 2 true (by decide) (by decide)⟩

/-! ## C3: what the caller can tell from the result -/

/-- C3 counterexample: at the same state, u1's duplicate attempt and u2's
attempt under a storage fault produce the identical caller-visible result
`false`; the result cannot distinguish Rejected(DuplicateVote) from
Failed(StorageError). -/
theorem castVote_outcomes_conflated_counterexample :
    has_user_voted_for exS1.ledger "u1" 1 = true ∧
    has_user_voted_for exS1.ledger "u2" 1 = false ∧
    (cast_vote exS1 "u1" 1 true true).1 = false ∧
    (cast_vote exS1 "u2" 1 false true).1 = false ∧
    (cast_vote exS1 "u1" 1 true true).1
      = (cast_vote exS1 "u2" 1 false true).1 := by
  decide

/-- C3 amended: cast_vote's caller-visible outcome is one boolean, true
exactly when the vote is accepted; a duplicate vote and a storage-layer
failure both surface as the same `false`, so the caller can tell
acceptance from non-acceptance but cannot tell DuplicateVote from
StorageError. -/
theorem castVote_boolean_outcome (s : State) (u : String) (c : Nat)
    (ok ed : Bool) :
    (cast_vote s u c ok ed).1 = false ↔
      (has_user_voted_for s.ledger u c = true ∨ ok = false) :=
  cast_vote_fst_false_iff s u c ok ed

/-! ## C4: counter increment only after ledger success -/

/-- C4: a failed ledger write yields the non-accepted result with the
whole state unchanged (no counter mutation, no notification), and any
non-accepted cast_vote leaves the state untouched: counters are mutated
and a notification emitted only after the ledger write reports
success. -/
theorem castVote_counter_after_ledger (s : State) (u : String) (c : Nat)
    (ed : Bool) :
    cast_vote s u c false ed = (false, s) ∧
    ∀ ok : Bool, (cast_vote s u c ok ed).1 = false →
      (cast_vote s u c ok ed).2 = s := by
  refine ⟨cast_vote_mongo_fail s u c ed, ?_⟩
  intro ok hfalse
  rcases (cast_vote_fst_false_iff s u c ok ed).mp hfalse with hv | hok
  · rw [cast_vote_of_voted s u c ok ed hv]
  · subst hok
    rw [cast_vote_mongo_fail s u c ed]

/-- Witness for C4 at concrete inputs: a storage fault leaves `exS1`
unchanged, and so does u1's non-accepted duplicate attempt. -/
theorem castVote_counter_after_ledger_witness :
    cast_vote exS1 "u2" 1 false true = (false, exS1) ∧
    (cast_vote exS1 "u1" 1 true true).2 = exS1 :=
  ⟨(castVote_counter_after_ledger exS1 "u2" 1 true).1,
   (castVote_counter_after_ledger exS1 "u1" 1 true).2 true (by decide)⟩

/-! ## C5: notification delivery never affects the response -/

/-- C5: the caller-visible result and the durable state (ledger, counters,
global total) of cast_vote are the same whichever way the socket
broadcast delivery goes; a notification failure never turns an accepted
vote into a rejected or failed response. -/
theorem castVote_emit_fire_and_forget (s : State) (u : String) (c : Nat)
    (ok ed ed' : Bool) :
    (cast_vote s u c ok ed).1 = (cast_vote s u c ok ed').1 ∧
    (cast_vote s u c ok ed).2.ledger = (cast_vote s u c ok ed').2.ledger ∧
    (cast_vote s u c ok ed).2.counters = (cast_vote s u c ok ed').2.counters ∧
    (cast_vote s u c ok ed).2.systemTotal
      = (cast_vote s u c ok ed').2.systemTotal := by
  by_cases hv : has_user_voted_for s.ledger u c
  · rw [cast_vote_of_voted s u c ok ed hv, cast_vote_of_voted s u c ok ed' hv]
    exact ⟨rfl, rfl, rfl, rfl⟩
  · cases ok
    · rw [cast_vote_mongo_fail s u c ed, cast_vote_mongo_fail s u c ed']
      exact ⟨rfl, rfl, rfl, rfl⟩
    · rw [cast_vote_accepted s u c ed (by simpa using hv),
        cast_vote_accepted s u c ed' (by simpa using hv)]
      exact ⟨rfl, rfl, rfl, rfl⟩

/-! ## C6: tally consistency -/

theorem countVotesFor_of_not_ref (l : List VoteRecord) (c : Nat)
    (h : ∀ v ∈ l, v.contestant_id ≠ c) : countVotesFor l c = 0 := by
  induction l with
  | nil => rfl
  | cons v rest ih =>
    have hb : (v.contestant_id == c) = false := by
      simpa using h v (by simp)
    simp only [countVotesFor, List.filter_cons, hb]
    exact ih fun w hw => h w (by simp [hw])

theorem countersSum_of_all_zero (cs : List (Nat × Nat))
    (h : ∀ p ∈ cs, p.2 = 0) : countersSum cs = 0 := by
  induction cs with
  | nil => rfl
  | cons p rest ih =>
    have hp : p.2 = 0 := h p (by simp)
    simp only [countersSum, List.map_cons, List.sum_cons] at ih ⊢
    rw [hp, ih fun q hq => h q (by simp [hq])]

theorem add_contestant_eq (s : State) (n cat f : String) :
    add_contestant s n cat f = (freshId s,
      { s with
        catalog := s.catalog
          ++ [{ id := freshId s, nombre := n, categoria := cat, foto := f }],
        counters := rSet s.counters (freshId s) 0 }) := by
  simp [add_contestant, add_contestant_repo]

theorem tallyInv_cast_vote (s : State) (u : String) (c : Nat) (ok ed : Bool)
    (h : TallyInv s) : TallyInv (cast_vote s u c ok ed).2 := by
  by_cases hv : has_user_voted_for s.ledger u c
  · rw [cast_vote_of_voted s u c ok ed hv]
    exact h
  · cases ok
    · rw [cast_vote_mongo_fail s u c ed]
      exact h
    · rw [cast_vote_accepted s u c ed (by simpa using hv)]
      obtain ⟨h1, h2⟩ := h
      constructor
      · show s.systemTotal + 1 = countersSum (rIncr s.counters c)
        rw [countersSum_rIncr, h1]
      · intro x
        show rGet (rIncr s.counters c) x
          = countVotesFor (s.ledger ++ [{ user_id := u, contestant_id := c }]) x
        rw [rGet_rIncr, countVotesFor_append, h2 x]

theorem tallyInv_add_contestant (s : State) (n cat f : String)
    (h : TallyInv s) : TallyInv (add_contestant s n cat f).2 := by
  obtain ⟨h1, h2⟩ := h
  have hget : rGet s.counters (freshId s) = 0 :=
    rGet_of_not_key _ _ (freshId_not_counter_key s)
  rw [add_contestant_eq]
  constructor
  · show s.systemTotal = countersSum (rSet s.counters (freshId s) 0)
    have hsum := countersSum_rSet s.counters (freshId s) 0
    omega
  · intro x
    show rGet (rSet s.counters (freshId s) 0) x = countVotesFor s.ledger x
    rw [rGet_rSet]
    by_cases hx : freshId s = x
    · subst hx
      rw [if_pos rfl,
        countVotesFor_of_not_ref s.ledger _ (freshId_not_in_ledger s)]
    · rw [if_neg hx]
      exact h2 x

/-- The states the initialization loop moves through: no votes yet and
every counter key holds 0. -/
def ZeroCounters (s : State) : Prop :=
  s.ledger = [] ∧ ∀ p ∈ s.counters, p.2 = 0

theorem zeroCounters_init_step (s : State) (it : RawItem)
    (h : ZeroCounters s) : ZeroCounters (init_step s it) := by
  unfold init_step
  split
  · rw [add_contestant_eq]
    exact ⟨h.1, all_zero_rSet _ _ h.2⟩
  · exact h

theorem zeroCounters_foldl (items : List RawItem) (s : State)
    (h : ZeroCounters s) : ZeroCounters (items.foldl init_step s) := by
  induction items generalizing s with
  | nil => exact h
  | cons it rest ih => exact ih _ (zeroCounters_init_step s it h)

theorem tallyInv_initialize_database (s : State) (items : List RawItem) :
    TallyInv (initialize_database s items) := by
  have hz : ZeroCounters (clear_state s) := ⟨rfl, by simp [clear_state]⟩
  obtain ⟨h1, h2⟩ := zeroCounters_foldl items _ hz
  constructor
  · show 0 = countersSum (items.foldl init_step (clear_state s)).counters
    rw [countersSum_of_all_zero _ h2]
  · intro c
    show rGet (items.foldl init_step (clear_state s)).counters c
      = countVotesFor (items.foldl init_step (clear_state s)).ledger c
    rw [rGet_of_all_zero _ _ h2, h1]
    rfl

/-- C6: the tally invariant — the global counter equals the sum of the
per-entrant counters, and each per-entrant counter equals the number of
ledger records for that entrant — is preserved by cast_vote (under every
storage and delivery outcome), is (re)established by initialize_database,
and is preserved by add_contestant. -/
theorem tally_invariant_preserved (s : State) (u : String) (c : Nat)
    (ok ed : Bool) (items : List RawItem) (n cat f : String)
    (h : TallyInv s) :
    TallyInv (cast_vote s u c ok ed).2
    ∧ TallyInv (initialize_database s items)
    ∧ TallyInv (add_contestant s n cat f).2 :=
  ⟨tallyInv_cast_vote s u c ok ed h,
   tallyInv_initialize_database s items,
   tallyInv_add_contestant s n cat f h⟩

/-- Witness for C6 at a concrete input. -/
theorem tally_invariant_preserved_witness :
    TallyInv exS0
    ∧ TallyInv (cast_vote exS0 "u1" 1 true true).2
    ∧ TallyInv (initialize_database exS0
        [{ nombre := some "B", categoria := some "Song" }])
    ∧ TallyInv (add_contestant exS0 "B" "Song" "b.png").2 := by
  have h0 : TallyInv exS0 := by
    constructor
    · rfl
    · intro c
      simp [exS0, rGet, countVotesFor]
  exact ⟨h0, tally_invariant_preserved exS0 "u1" 1 true true
    [{ nombre := some "B", categoria := some "Song" }] "B" "Song" "b.png" h0⟩

/-! ## C7: top-3 report -/

/-- Sorted by total_votes in descending order. -/
def SortedDesc : List ContestantAdminView → Prop :=
  List.Pairwise fun a b => b.total_votes ≤ a.total_votes

theorem insertDesc_perm (x : ContestantAdminView)
    (l : List ContestantAdminView) : (insertDesc x l).Perm (x :: l) := by
  induction l with
  | nil => rfl
  | cons y ys ih =>
    by_cases h : y.total_votes ≤ x.total_votes
    · simp [insertDesc, h]
    · simp only [insertDesc, if_neg h]
      exact (ih.cons y).trans (List.Perm.swap x y ys)

theorem sortDesc_perm (l : List ContestantAdminView) :
    (sortDesc l).Perm l := by
  induction l with
  | nil => rfl
  | cons a l ih =>
    show (insertDesc a (sortDesc l)).Perm (a :: l)
    exact (insertDesc_perm a (sortDesc l)).trans (ih.cons a)

theorem sortedDesc_insertDesc (x : ContestantAdminView)
    (l : List ContestantAdminView) (h : SortedDesc l) :
    SortedDesc (insertDesc x l) := by
  induction l with
  | nil => simp [insertDesc, SortedDesc]
  | cons y ys ih =>
    obtain ⟨hy, hys⟩ := List.pairwise_cons.mp h
    by_cases hle : y.total_votes ≤ x.total_votes
    · simp only [insertDesc, if_pos hle]
      refine List.pairwise_cons.mpr ⟨?_, h⟩
      intro z hz
      rcases List.mem_cons.mp hz with hz | hz
      · subst hz; exact hle
      · exact le_trans (hy z hz) hle
    · simp only [insertDesc, if_neg hle]
      refine List.pairwise_cons.mpr ⟨?_, ih hys⟩
      intro z hz
      rcases List.mem_cons.mp ((insertDesc_perm x ys).mem_iff.mp hz) with hz | hz
      · subst hz; omega
      · exact hy z hz

theorem sortDesc_sorted (l : List ContestantAdminView) :
    SortedDesc (sortDesc l) := by
  induction l with
  | nil => exact List.Pairwise.nil
  | cons a l ih => exact sortedDesc_insertDesc a (sortDesc l) ih

theorem filter_insertDesc (x : ContestantAdminView)
    (l : List ContestantAdminView) (v : Nat) :
    (insertDesc x l).filter (fun z => z.total_votes == v)
      = if x.total_votes = v
        then x :: l.filter (fun z => z.total_votes == v)
        else l.filter (fun z => z.total_votes == v) := by
  induction l with
  | nil => by_cases hx : x.total_votes = v <;> simp [insertDesc, hx]
  | cons y ys ih =>
    by_cases hle : y.total_votes ≤ x.total_votes
    · simp only [insertDesc, if_pos hle]
      by_cases hx : x.total_votes = v <;>
        by_cases hy : y.total_votes = v <;>
        simp [List.filter_cons, hx, hy]
    · have hlt : x.total_votes < y.total_votes := by omega
      simp only [insertDesc, if_neg hle, List.filter_cons, ih]
      by_cases hy : y.total_votes = v
      · have hx : ¬ x.total_votes = v := by omega
        simp [hx, hy]
      · by_cases hx : x.total_votes = v <;> simp [hx, hy]

theorem sortDesc_stable (l : List ContestantAdminView) (v : Nat) :
    (sortDesc l).filter (fun z => z.total_votes == v)
      = l.filter (fun z => z.total_votes == v) := by
  induction l with
  | nil => rfl
  | cons a l ih =>
    show (insertDesc a (sortDesc l)).filter _ = _
    rw [filter_insertDesc]
    by_cases h : a.total_votes = v <;> simp [List.filter_cons, h, ih]

/-- C7: get_top_3 is exactly the dashboard, stable-sorted by total_votes
in descending order, truncated to the first three rows: the sorted list
is a permutation of the dashboard, is descending, preserves the
dashboard's (catalog) order among rows with equal totals, and the report
has min 3 (catalog size) rows. -/
theorem get_top_3_correct (s : State) :
    get_top_3 s = (sortDesc (get_realtime_dashboard s)).take 3
    ∧ (sortDesc (get_realtime_dashboard s)).Perm (get_realtime_dashboard s)
    ∧ SortedDesc (sortDesc (get_realtime_dashboard s))
    ∧ (∀ v : Nat,
        (sortDesc (get_realtime_dashboard s)).filter
            (fun z => z.total_votes == v)
          = (get_realtime_dashboard s).filter (fun z => z.total_votes == v))
    ∧ (get_top_3 s).length = min 3 s.catalog.length := by
  refine ⟨rfl, sortDesc_perm _, sortDesc_sorted _,
    fun v => sortDesc_stable _ v, ?_⟩
  rw [get_top_3, List.length_take, (sortDesc_perm _).length_eq,
    get_realtime_dashboard, List.length_map]

/-! ## C8: bulk load then dashboard -/

/-- The (name, category) a valid raw descriptor contributes; `none` when
the loop skips it. -/
def extractValid (it : RawItem) : Option (String × String) :=
  if validItem it then
    some ((itemNombre it).getD "", (itemCategoria it).getD "")
  else
    none

theorem foldl_init_catalog (items : List RawItem) (s : State) :
    ((items.foldl init_step s).catalog.map fun c => (c.nombre, c.categoria))
      = (s.catalog.map fun c => (c.nombre, c.categoria))
        ++ items.filterMap extractValid := by
  induction items generalizing s with
  | nil => simp
  | cons it rest ih =>
    show ((rest.foldl init_step (init_step s it)).catalog.map _) = _
    rw [ih]
    by_cases hv : validItem it
    · rw [init_step, if_pos hv, add_contestant_eq]
      simp [extractValid, hv, List.filterMap_cons]
    · rw [init_step, if_neg hv]
      simp [extractValid, hv, List.filterMap_cons]

/-- C8: after initialize_database, the dashboard has exactly one row per
valid descriptor — in order, carrying the descriptor's resolved name and
category, with the invalid descriptors silently skipped — and every row
shows total_votes = 0. -/
theorem initialize_database_dashboard (s : State) (items : List RawItem) :
    ((get_realtime_dashboard (initialize_database s items)).map
        fun r => (r.nombre, r.categoria))
      = items.filterMap extractValid
    ∧ ∀ r ∈ get_realtime_dashboard (initialize_database s items),
        r.total_votes = 0 := by
  have hz : ZeroCounters (clear_state s) := ⟨rfl, by simp [clear_state]⟩
  obtain ⟨-, h2⟩ := zeroCounters_foldl items _ hz
  constructor
  · have := foldl_init_catalog items (clear_state s)
    simp only [clear_state, List.map_nil, List.nil_append] at this
    simpa [get_realtime_dashboard, initialize_database, List.map_map,
      Function.comp] using this
  · intro r hr
    simp only [get_realtime_dashboard, List.mem_map] at hr
    obtain ⟨c, -, hc⟩ := hr
    rw [← hc]
    show get_total_votes (initialize_database s items) c.id = 0
    rw [get_total_votes]
    exact rGet_of_all_zero _ _ h2

/-! ## C9: role derivation -/

/-- C9: login derives the role deterministically from the username alone:
the returned user has role admin exactly when the lower-cased username is
the reserved name "admin" and public otherwise, and the returned user is
the same whatever the stored users are — so two calls with the same
username always yield the same role. -/
theorem login_role_deterministic (users users' : List User)
    (username : String) :
    ((login users username).1.role
        = if username.toLower = "admin" then "admin" else "public")
    ∧ (login users username).1 = (login users' username).1 := by
  constructor
  · by_cases h : username.toLower = "admin" <;> simp [login, h]
  · rfl

/-! ## C10: at most one user record per username -/

/-- Number of stored records carrying a username. -/
def countUsername (users : List User) (name : String) : Nat :=
  (users.filter fun u => u.username == name).length

theorem filter_create_user_self (users : List User) (u : User)
    (h : countUsername users u.username ≤ 1) :
    (create_user users u).filter (fun w => w.username == u.username)
      = [u] := by
  induction users with
  | nil => simp [create_user]
  | cons w ws ih =>
    by_cases hw : (w.username == u.username) = true
    · have hcount : countUsername ws u.username = 0 := by
        simp only [countUsername, List.filter_cons, hw, if_true] at h ⊢
        simp only [List.length_cons] at h
        omega
      have hnil : ws.filter (fun x => x.username == u.username) = [] :=
        List.length_eq_zero.mp hcount
      simp [create_user, hw, List.filter_cons, hnil]
    · have h' : countUsername ws u.username ≤ 1 := by
        simpa [countUsername, List.filter_cons, hw] using h
      simp [create_user, hw, List.filter_cons, ih h']

/-- C10: when the store holds at most one record for a username, a login
leaves exactly one record for it — the freshly derived user — and a
repeated login still leaves exactly that one record: create_user upserts
keyed on the username and never duplicates. -/
theorem login_upsert_unique (users : List User) (username : String)
    (h : countUsername users username ≤ 1) :
    ((login users username).2.filter fun w => w.username == username)
      = [(login users username).1]
    ∧ ((login (login users username).2 username).2.filter
          fun w => w.username == username)
      = [(login users username).1] := by
  have hu : (login users username).1.username = username := rfl
  have h1 : ((login users username).2.filter fun w => w.username == username)
      = [(login users username).1] :=
    filter_create_user_self users (login users username).1 (by rw [hu]; exact h)
  have hcount1 : countUsername (login users username).2 username = 1 := by
    rw [countUsername, h1]
    rfl
  refine ⟨h1, ?_⟩
  have hu2 : (login (login users username).2 username).1.username
      = username := rfl
  have h2 := filter_create_user_self (login users username).2
    (login (login users username).2 username).1 (by rw [hu2]; omega)
  exact h2

/-- Witness for C10 at a concrete input. -/
theorem login_upsert_unique_witness :
    (((login [] "Admin").2.filter fun w => w.username == "Admin")
      = [(login [] "Admin").1])
    ∧ (((login (login [] "Admin").2 "Admin").2.filter
          fun w => w.username == "Admin")
      = [(login [] "Admin").1]) :=
  login_upsert_unique [] "Admin" (by decide)

end Concurso
